import Mathlib

/-!
Verification development for the distributed-tracing core
(`tracing-distributed` + `tracing-honeycomb`).

The definitions below are a shallow embedding of the Rust source:

* `tracing-distributed/src/telemetry_layer.rs`
  (`TraceCtx`, `TraceCtxRegistry::record_trace_ctx`, `TraceCtxRegistry::eval_ctx`,
   `TelemetryLayer::on_close`, `TelemetryLayer::on_event`)
* `tracing-distributed/src/trace.rs`
  (`register_dist_tracing_root`, `current_dist_trace_ctx`, `TraceCtxError`)
* `tracing-honeycomb/src/honeycomb.rs`
  (`SpanId`/`TraceId` `Display` and `FromStr` instances,
   `HoneycombTelemetry::should_report`)
* `tracing-honeycomb/src/deterministic_sampler.rs` (`sample`, SHA-1 based)

Host-framework span handles (`tracing::span::Id`, a nonzero u64) are modelled
as `Nat`.  Per-span extension storage for the `LazyTraceCtx` cache is modelled
as a map from handles to optional cached contexts.  The ancestor iterators
that the Rust code builds by unfolding `span.parent()` are modelled as explicit
lists of handles (the span under inspection first, ancestors near to far).
Timestamps, metadata pointers, service names and visitor payloads carried by
`trace::Span` / `trace::Event` are environment-dependent (clock / allocator)
and are not part of any claim; records here carry the identifier fields.
-/

/-- Host framework span handle: `tracing::span::Id` (a nonzero `u64` in Rust). -/
abbrev SpanHandle := Nat

/-- `TraceCtx` from `tracing-distributed/src/telemetry_layer.rs`:
`parent_span : Option<SpanId>`, `trace_id : TraceId`. -/
structure TraceCtx (SpanId TraceId : Type) where
  parent_span : Option SpanId
  trace_id : TraceId
deriving DecidableEq

/-- The `handle -> TraceCtx` map inside `TraceCtxRegistry` (the `registry`
field, a `RwLock<HashMap<Id, TraceCtx>>`), modelled as a total function into
`Option`. -/
abbrev Registry (SpanId TraceId : Type) := SpanHandle → Option (TraceCtx SpanId TraceId)

/-- Per-span `LazyTraceCtx` extension slots (one optional cached `TraceCtx`
per span, owned by the host framework's span store). -/
abbrev Cache (SpanId TraceId : Type) := SpanHandle → Option (TraceCtx SpanId TraceId)

/-- `TraceCtxRegistry::record_trace_ctx`: write-locks the map and runs
`trace_ctx_registry.insert(id, trace_ctx)`.  `HashMap::insert` replaces any
existing entry for `id` (the source carries a `TODO: handle overwrite?`
comment; no overwrite check is performed). -/
def record_trace_ctx (reg : Registry S T) (trace_id : T)
    (remote_parent_span : Option S) (id : SpanHandle) : Registry S T :=
  fun i => if i = id then some ⟨remote_parent_span, trace_id⟩ else reg i

/-- Insert/replace one span's `LazyTraceCtx` extension slot
(`write_guard.insert` / `write_guard.replace`). -/
def cacheUpdate (c : Cache S T) (id : SpanHandle) (v : TraceCtx S T) : Cache S T :=
  fun i => if i = id then some v else c i

/-- The loop `for span_ref in path.into_iter() { ... replace(LazyTraceCtx(TraceCtx {
trace_id, parent_span: None })) }` in `eval_ctx`: every span whose handle is in
`path` gets the cached context `⟨none, t⟩`, in push order. -/
def writePath (t : T) : List SpanHandle → Cache S T → Cache S T
  | [], c => c
  | p :: ps, c => writePath t ps (cacheUpdate c p ⟨none, t⟩)

/-- The loop body of `TraceCtxRegistry::eval_ctx`
(`tracing-distributed/src/telemetry_layer.rs`, lines 64-138).  `path` is the
local `Vec` of ancestors seen so far with neither a cached context nor a
registry entry; the third list argument is the rest of the ancestor iterator.
Returns the resolved context (if any) together with the per-span cache state
after the call. -/
def evalCtxGo (reg : Registry S T) :
    Cache S T → List SpanHandle → List SpanHandle → Option (TraceCtx S T) × Cache S T
  | cache, _, [] => (none, cache)
  | cache, path, id :: rest =>
    match cache id with
    | some c =>
      (some (if path.isEmpty then c else ⟨none, c.trace_id⟩),
        writePath c.trace_id path cache)
    | none =>
      match reg id with
      | some x =>
        (some (if path.isEmpty then x else ⟨none, x.trace_id⟩),
          writePath x.trace_id path (cacheUpdate cache id x))
      | none => evalCtxGo reg cache (path ++ [id]) rest

/-- `TraceCtxRegistry::eval_ctx` applied to the ancestor iterator `chain`
(span under inspection first, then its ancestors near to far), starting with
an empty `path` vector. -/
def eval_ctx (reg : Registry S T) (cache : Cache S T) (chain : List SpanHandle) :
    Option (TraceCtx S T) × Cache S T :=
  evalCtxGo reg cache [] chain

/-- Identifier fields of `trace::Span` (`tracing-distributed/src/trace.rs`):
`id`, `parent_id`, `trace_id`.  The remaining fields (`initialized_at`,
`completed_at`, `meta`, `service_name`, `values`) are clock/allocator data not
touched by any claim. -/
structure SpanRecord (SpanId TraceId : Type) where
  id : SpanId
  parent_id : Option SpanId
  trace_id : TraceId
deriving DecidableEq

/-- Identifier fields of `trace::Event`: `parent_id`, `trace_id`. -/
structure EventRecord (SpanId TraceId : Type) where
  parent_id : Option SpanId
  trace_id : TraceId
deriving DecidableEq

/-- `TelemetryLayer::on_close` (`telemetry_layer.rs`, lines 253-300).
`id` is the closing span, `ancestors` its ancestor chain (built in the source
by unfolding `span.parent()`; `ancestors.head?` is `span.parent()`).
Output: the reported `SpanRecord` (if any), the registry map after the call
(never written by `on_close`: the only registry access is the read inside
`eval_ctx`), and the per-span cache state after the call. -/
def on_close (reg : Registry S T) (cache : Cache S T) (promote : SpanHandle → S)
    (id : SpanHandle) (ancestors : List SpanHandle) :
    Option (SpanRecord S T) × Registry S T × Cache S T :=
  let res := eval_ctx reg cache (id :: ancestors)
  match res.1 with
  | none => (none, reg, res.2)
  | some trace_ctx =>
    let parent_id : Option S :=
      match trace_ctx.parent_span with
      | none => ancestors.head?.map promote
      | some parent_span => some parent_span
    (some ⟨promote id, parent_id, trace_ctx.trace_id⟩, reg, res.2)

/-- Parent determination at the top of `TelemetryLayer::on_event`
(lines 202-214): explicit parent if set, else `none` if the event is marked
root, else the current ambient span. -/
def eventParent (explicitParent : Option SpanHandle) (isRoot : Bool)
    (current : Option SpanHandle) : Option SpanHandle :=
  match explicitParent with
  | some p => some p
  | none => if isRoot then none else current

/-- `TelemetryLayer::on_event` (lines 201-251).  `parentAncestors pid` is the
ancestor chain of span `pid` (the unfolded iterator minus `pid` itself).
Events with no parent are dropped before resolution; events whose parent chain
does not resolve are dropped after. -/
def on_event (reg : Registry S T) (cache : Cache S T) (promote : SpanHandle → S)
    (explicitParent : Option SpanHandle) (isRoot : Bool) (current : Option SpanHandle)
    (parentAncestors : SpanHandle → List SpanHandle) :
    Option (EventRecord S T) × Cache S T :=
  match eventParent explicitParent isRoot current with
  | none => (none, cache)
  | some parent_id =>
    let res := eval_ctx reg cache (parent_id :: parentAncestors parent_id)
    match res.1 with
    | none => (none, res.2)
    | some parent_trace_ctx =>
      (some ⟨some (promote parent_id), parent_trace_ctx.trace_id⟩, res.2)

-- ## Basic lemmas about `eval_ctx`

theorem evalCtxGo_nil (reg : Registry S T) (cache : Cache S T) (path : List SpanHandle) :
    evalCtxGo reg cache path [] = (none, cache) := rfl

theorem evalCtxGo_cons_cacheHit (reg : Registry S T) (cache : Cache S T)
    (path : List SpanHandle) (id : SpanHandle) (rest : List SpanHandle) (c : TraceCtx S T)
    (h : cache id = some c) :
    evalCtxGo reg cache path (id :: rest) =
      (some (if path.isEmpty then c else ⟨none, c.trace_id⟩),
        writePath c.trace_id path cache) := by
  simp [evalCtxGo, h]

theorem evalCtxGo_cons_regHit (reg : Registry S T) (cache : Cache S T)
    (path : List SpanHandle) (id : SpanHandle) (rest : List SpanHandle) (x : TraceCtx S T)
    (h1 : cache id = none) (h2 : reg id = some x) :
    evalCtxGo reg cache path (id :: rest) =
      (some (if path.isEmpty then x else ⟨none, x.trace_id⟩),
        writePath x.trace_id path (cacheUpdate cache id x)) := by
  simp [evalCtxGo, h1, h2]

theorem evalCtxGo_cons_miss (reg : Registry S T) (cache : Cache S T)
    (path : List SpanHandle) (id : SpanHandle) (rest : List SpanHandle)
    (h1 : cache id = none) (h2 : reg id = none) :
    evalCtxGo reg cache path (id :: rest) =
      evalCtxGo reg cache (path ++ [id]) rest := by
  simp [evalCtxGo, h1, h2]

/-- Pointwise description of `writePath`. -/
theorem writePath_apply (t : T) (path : List SpanHandle) (c : Cache S T) (i : SpanHandle) :
    writePath (S := S) t path c i =
      if i ∈ path then some ⟨none, t⟩ else c i := by
  induction path generalizing c with
  | nil => simp [writePath]
  | cons p ps ih =>
    simp only [writePath, ih, cacheUpdate, List.mem_cons]
    by_cases hps : i ∈ ps <;> by_cases hp : i = p <;> simp [hps, hp]

/-- If every handle on the chain has neither a cached context nor a registry
entry, the walk exhausts the iterator: result `none`, caches untouched. -/
theorem evalCtxGo_all_miss (reg : Registry S T) (cache : Cache S T)
    (chain : List SpanHandle)
    (h : ∀ i ∈ chain, cache i = none ∧ reg i = none) :
    ∀ path, evalCtxGo reg cache path chain = (none, cache) := by
  induction chain with
  | nil => intro path; rfl
  | cons a rest ih =>
    intro path
    have ha := h a (by simp)
    rw [evalCtxGo_cons_miss reg cache path a rest ha.1 ha.2]
    exact ih (fun i hi => h i (by simp [hi])) _

/-- Walk reaching a cached context: every handle in `pre` has neither cache
nor registry entry, and `x` carries cached context `c`. -/
theorem evalCtxGo_cache_found (reg : Registry S T) (cache : Cache S T)
    (pre : List SpanHandle) (x : SpanHandle) (rest : List SpanHandle) (c : TraceCtx S T)
    (hpre : ∀ i ∈ pre, cache i = none ∧ reg i = none)
    (hx : cache x = some c) :
    ∀ path, evalCtxGo reg cache path (pre ++ x :: rest) =
      (some (if (path ++ pre).isEmpty then c else ⟨none, c.trace_id⟩),
        writePath c.trace_id (path ++ pre) cache) := by
  induction pre with
  | nil =>
    intro path
    simpa using evalCtxGo_cons_cacheHit reg cache path x rest c hx
  | cons a pre' ih =>
    intro path
    have ha := hpre a (by simp)
    rw [List.cons_append, evalCtxGo_cons_miss reg cache path a _ ha.1 ha.2,
      ih (fun i hi => hpre i (by simp [hi])) (path ++ [a])]
    simp

/-- Walk reaching a registry entry: every handle in `pre` has neither cache
nor registry entry, `x` has no cached context but registry entry `c`.  The
full context `c` (with its `parent_span`) is cached on `x`; every handle in
the accumulated path gets `⟨none, c.trace_id⟩`. -/
theorem evalCtxGo_reg_found (reg : Registry S T) (cache : Cache S T)
    (pre : List SpanHandle) (x : SpanHandle) (rest : List SpanHandle) (c : TraceCtx S T)
    (hpre : ∀ i ∈ pre, cache i = none ∧ reg i = none)
    (hx : cache x = none) (hr : reg x = some c) :
    ∀ path, evalCtxGo reg cache path (pre ++ x :: rest) =
      (some (if (path ++ pre).isEmpty then c else ⟨none, c.trace_id⟩),
        writePath c.trace_id (path ++ pre) (cacheUpdate cache x c)) := by
  induction pre with
  | nil =>
    intro path
    simpa using evalCtxGo_cons_regHit reg cache path x rest c hx hr
  | cons a pre' ih =>
    intro path
    have ha := hpre a (by simp)
    rw [List.cons_append, evalCtxGo_cons_miss reg cache path a _ ha.1 ha.2,
      ih (fun i hi => hpre i (by simp [hi])) (path ++ [a])]
    simp

/-- Every chain decomposes into either an all-miss chain, or a miss prefix
followed by a first hit (cached context, or registry entry). -/
theorem chain_decomp (reg : Registry S T) (cache : Cache S T) (chain : List SpanHandle) :
    (∀ i ∈ chain, cache i = none ∧ reg i = none) ∨
    (∃ pre x rest, chain = pre ++ x :: rest ∧
      (∀ i ∈ pre, cache i = none ∧ reg i = none) ∧
      ((∃ c, cache x = some c) ∨
        (cache x = none ∧ ∃ c, reg x = some c))) := by
  induction chain with
  | nil => exact Or.inl (by simp)
  | cons a rest ih =>
    cases hc : cache a with
    | some c => exact Or.inr ⟨[], a, rest, by simp, by simp, Or.inl ⟨c, hc⟩⟩
    | none =>
      cases hr : reg a with
      | some c => exact Or.inr ⟨[], a, rest, by simp, by simp, Or.inr ⟨hc, c, hr⟩⟩
      | none =>
        rcases ih with hmiss | ⟨pre, x, rest', heq, hpre, hhit⟩
        · refine Or.inl ?_
          intro i hi
          rcases List.mem_cons.mp hi with h | h
          · exact h ▸ ⟨hc, hr⟩
          · exact hmiss i h
        · refine Or.inr ⟨a :: pre, x, rest', by simp [heq], ?_, hhit⟩
          intro i hi
          rcases List.mem_cons.mp hi with h | h
          · exact h ▸ ⟨hc, hr⟩
          · exact hpre i h

-- ## Claim C2: resolution results of `eval_ctx`

/-- Claim C2: for a chain whose handles up to the first registered one carry
neither a cached context nor a registry entry, `eval_ctx` started at the
registered span returns its full `TraceCtx` `⟨r, t⟩`; started at a strict
descendant it returns `⟨none, t⟩`; and on a chain with no registry entry and
no cached context anywhere it returns `none`. -/
theorem c2_eval_ctx_resolution {S T : Type} (reg : Registry S T) (cache : Cache S T) :
    (∀ (d : SpanHandle) (rest : List SpanHandle) (t : T) (r : Option S),
        cache d = none → reg d = some ⟨r, t⟩ →
        (eval_ctx reg cache (d :: rest)).1 = some ⟨r, t⟩) ∧
    (∀ (pre : List SpanHandle) (d : SpanHandle) (rest : List SpanHandle) (t : T) (r : Option S),
        pre ≠ [] →
        (∀ i ∈ pre, cache i = none ∧ reg i = none) →
        cache d = none → reg d = some ⟨r, t⟩ →
        (eval_ctx reg cache (pre ++ d :: rest)).1 = some ⟨none, t⟩) ∧
    (∀ chain : List SpanHandle,
        (∀ i ∈ chain, cache i = none ∧ reg i = none) →
        (eval_ctx reg cache chain).1 = none) := by
  refine ⟨?_, ?_, ?_⟩
  · intro d rest t r hc hr
    unfold eval_ctx
    rw [evalCtxGo_cons_regHit reg cache [] d rest ⟨r, t⟩ hc hr]
    rfl
  · intro pre d rest t r hne hmiss hc hr
    unfold eval_ctx
    rw [evalCtxGo_reg_found reg cache pre d rest ⟨r, t⟩ hmiss hc hr []]
    cases pre with
    | nil => exact absurd rfl hne
    | cons p ps => rfl
  · intro chain h
    unfold eval_ctx
    rw [evalCtxGo_all_miss reg cache chain h []]

/-- Witness for C2 at a concrete input: registry `{2 ↦ ⟨some 9, 7⟩}`, empty
caches, chain `[1, 2, 3]` (span 1 is a strict descendant of registered span 2). -/
theorem c2_eval_ctx_resolution_witness :
    (eval_ctx (S := Nat) (T := Nat)
        (fun i => if i = 2 then some ⟨some 9, 7⟩ else none)
        (fun _ => none) ([1] ++ 2 :: [3])).1 = some ⟨none, 7⟩ :=
  (c2_eval_ctx_resolution _ _).2.1 [1] 2 [3] 7 (some 9)
    (by simp)
    (by intro i hi; simp at hi; subst hi; exact ⟨rfl, rfl⟩)
    rfl rfl

-- ## Claim C3: idempotence of `eval_ctx`

/-- Claim C3: running `eval_ctx` a second time on the same chain, against the
caches installed by the first run (no intervening `record`), returns the same
result and leaves every span's cached context unchanged. -/
theorem c3_eval_ctx_idempotent {S T : Type} (reg : Registry S T) (cache : Cache S T)
    (chain : List SpanHandle) :
    (eval_ctx reg (eval_ctx reg cache chain).2 chain).1 =
      (eval_ctx reg cache chain).1 ∧
    ∀ i, (eval_ctx reg (eval_ctx reg cache chain).2 chain).2 i =
      (eval_ctx reg cache chain).2 i := by
  rcases chain_decomp reg cache chain with hmiss | ⟨pre, x, rest, heq, hpre, hhit⟩
  · have h1 : eval_ctx reg cache chain = (none, cache) :=
      evalCtxGo_all_miss reg cache chain hmiss []
    have e2 : (eval_ctx reg cache chain).2 = cache := by rw [h1]
    refine ⟨?_, fun i => ?_⟩
    · rw [e2]
    · rw [e2]; rw [e2]
  · -- common treatment of the two hit kinds: the first call returns
    -- `(some R, W)` where the head of the chain is cached in `W` with a value
    -- whose resolved form is again `R`.
    have key : ∀ (R : TraceCtx S T) (W : Cache S T),
        eval_ctx reg cache chain = (some R, W) →
        eval_ctx reg W chain = (some R, W) →
        (eval_ctx reg (eval_ctx reg cache chain).2 chain).1 =
          (eval_ctx reg cache chain).1 ∧
        ∀ i, (eval_ctx reg (eval_ctx reg cache chain).2 chain).2 i =
          (eval_ctx reg cache chain).2 i := by
      intro R W h1 h2
      have e2 : (eval_ctx reg cache chain).2 = W := by rw [h1]
      have e1 : (eval_ctx reg cache chain).1 = some R := by rw [h1]
      refine ⟨?_, fun i => ?_⟩
      · rw [e2, h2, e1]
      · rw [e2, h2]
    rcases hhit with ⟨c, hc⟩ | ⟨hcx, c, hr⟩
    · -- first hit is a cached context on `x`
      cases pre with
      | nil =>
        refine key c cache ?_ ?_
        · unfold eval_ctx
          rw [heq]
          simpa [writePath] using evalCtxGo_cons_cacheHit reg cache [] x rest c hc
        · unfold eval_ctx
          rw [heq]
          simpa [writePath] using evalCtxGo_cons_cacheHit reg cache [] x rest c hc
      | cons p ps =>
        refine key ⟨none, c.trace_id⟩ (writePath c.trace_id (p :: ps) cache) ?_ ?_
        · unfold eval_ctx
          rw [heq, evalCtxGo_cache_found reg cache (p :: ps) x rest c hpre hc []]
          rfl
        · have hp : (writePath c.trace_id (p :: ps) cache) p =
              some ⟨none, c.trace_id⟩ := by
            rw [writePath_apply]; simp
          unfold eval_ctx
          rw [heq, List.cons_append,
            evalCtxGo_cons_cacheHit reg _ [] p _ ⟨none, c.trace_id⟩ hp]
          rfl
    · -- first hit is a registry entry on `x`
      cases pre with
      | nil =>
        have hx : (cacheUpdate cache x c) x = some c := by simp [cacheUpdate]
        refine key c (cacheUpdate cache x c) ?_ ?_
        · unfold eval_ctx
          rw [heq]
          simpa [writePath] using evalCtxGo_cons_regHit reg cache [] x rest c hcx hr
        · unfold eval_ctx
          rw [heq]
          simpa [writePath] using
            evalCtxGo_cons_cacheHit reg (cacheUpdate cache x c) [] x rest c hx
      | cons p ps =>
        refine key ⟨none, c.trace_id⟩
          (writePath c.trace_id (p :: ps) (cacheUpdate cache x c)) ?_ ?_
        · unfold eval_ctx
          rw [heq, evalCtxGo_reg_found reg cache (p :: ps) x rest c hpre hcx hr []]
          rfl
        · have hp : (writePath c.trace_id (p :: ps) (cacheUpdate cache x c)) p =
              some ⟨none, c.trace_id⟩ := by
            rw [writePath_apply]; simp
          unfold eval_ctx
          rw [heq, List.cons_append,
            evalCtxGo_cons_cacheHit reg _ [] p _ ⟨none, c.trace_id⟩ hp]
          rfl

-- ## Claim C4: shape of caches installed by `eval_ctx`

/-- Claim C4: after an `eval_ctx` call, every span's cached slot is either
untouched, or (only for the registered local root itself) a copy of its
registry entry, or a context `⟨none, t⟩` whose `trace_id` `t` is the one the
call resolved to — so `remote_parent_span` is cleared on every non-root span
the call touches. -/
theorem c4_eval_ctx_cache_invariant {S T : Type} (reg : Registry S T)
    (cache : Cache S T) (chain : List SpanHandle) (i : SpanHandle) :
    (eval_ctx reg cache chain).2 i = cache i ∨
    (∃ x, reg i = some x ∧ (eval_ctx reg cache chain).2 i = some x) ∨
    (∃ t, (eval_ctx reg cache chain).2 i = some ⟨none, t⟩ ∧
      ∃ c, (eval_ctx reg cache chain).1 = some c ∧ c.trace_id = t) := by
  rcases chain_decomp reg cache chain with hmiss | ⟨pre, x, rest, heq, hpre, hhit⟩
  · have h1 : eval_ctx reg cache chain = (none, cache) :=
      evalCtxGo_all_miss reg cache chain hmiss []
    exact Or.inl (by rw [h1])
  · rcases hhit with ⟨c, hc⟩ | ⟨hcx, c, hr⟩
    · have h1 : eval_ctx reg cache chain =
          (some (if pre.isEmpty then c else ⟨none, c.trace_id⟩),
            writePath c.trace_id pre cache) := by
        unfold eval_ctx
        rw [heq, evalCtxGo_cache_found reg cache pre x rest c hpre hc []]
        rfl
      have e2 : (eval_ctx reg cache chain).2 = writePath c.trace_id pre cache := by
        rw [h1]
      have e1 : (eval_ctx reg cache chain).1 =
          some (if pre.isEmpty then c else ⟨none, c.trace_id⟩) := by rw [h1]
      by_cases hi : i ∈ pre
      · refine Or.inr (Or.inr ⟨c.trace_id, ?_, ?_⟩)
        · rw [e2, writePath_apply, if_pos hi]
        · refine ⟨if pre.isEmpty then c else ⟨none, c.trace_id⟩, e1, ?_⟩
          cases pre <;> simp
      · refine Or.inl ?_
        rw [e2, writePath_apply, if_neg hi]
    · have h1 : eval_ctx reg cache chain =
          (some (if pre.isEmpty then c else ⟨none, c.trace_id⟩),
            writePath c.trace_id pre (cacheUpdate cache x c)) := by
        unfold eval_ctx
        rw [heq, evalCtxGo_reg_found reg cache pre x rest c hpre hcx hr []]
        rfl
      have e2 : (eval_ctx reg cache chain).2 =
          writePath c.trace_id pre (cacheUpdate cache x c) := by rw [h1]
      have e1 : (eval_ctx reg cache chain).1 =
          some (if pre.isEmpty then c else ⟨none, c.trace_id⟩) := by rw [h1]
      by_cases hi : i ∈ pre
      · refine Or.inr (Or.inr ⟨c.trace_id, ?_, ?_⟩)
        · rw [e2, writePath_apply, if_pos hi]
        · refine ⟨if pre.isEmpty then c else ⟨none, c.trace_id⟩, e1, ?_⟩
          cases pre <;> simp
      · by_cases hix : i = x
        · refine Or.inr (Or.inl ⟨c, hix ▸ hr, ?_⟩)
          rw [e2, writePath_apply, if_neg hi, hix]
          simp [cacheUpdate]
        · refine Or.inl ?_
          rw [e2, writePath_apply, if_neg hi]
          simp [cacheUpdate, hix]

-- ## `on_close` unfolding lemmas

theorem on_close_eval_none {S T : Type} (reg : Registry S T) (cache : Cache S T)
    (promote : SpanHandle → S) (id : SpanHandle) (ancestors : List SpanHandle)
    (h : (eval_ctx reg cache (id :: ancestors)).1 = none) :
    on_close reg cache promote id ancestors =
      (none, reg, (eval_ctx reg cache (id :: ancestors)).2) := by
  simp only [on_close, h]

theorem on_close_eval_some {S T : Type} (reg : Registry S T) (cache : Cache S T)
    (promote : SpanHandle → S) (id : SpanHandle) (ancestors : List SpanHandle)
    (ctx : TraceCtx S T)
    (h : (eval_ctx reg cache (id :: ancestors)).1 = some ctx) :
    on_close reg cache promote id ancestors =
      (some ⟨promote id,
          (match ctx.parent_span with
            | none => ancestors.head?.map promote
            | some parent_span => some parent_span),
          ctx.trace_id⟩,
        reg, (eval_ctx reg cache (id :: ancestors)).2) := by
  simp only [on_close, h]

-- ## Claim C5: parent link of a closing span's record

/-- Claim C5: when `on_close` resolves a context for the closing span, the
reported record's `parent_id` is the resolved `remote_parent_span` when set
(irrespective of the in-process parent), else the promoted in-process parent
handle when one exists, else `none`; in particular a registered root with
`remote_parent_span = none` and no in-process parent closes with
`parent_id = none`. -/
theorem c5_on_close_parent_id {S T : Type} (reg : Registry S T) (cache : Cache S T)
    (promote : SpanHandle → S) (id : SpanHandle) (ancestors : List SpanHandle) :
    (∀ ctx : TraceCtx S T, (eval_ctx reg cache (id :: ancestors)).1 = some ctx →
      (on_close reg cache promote id ancestors).1 =
        some ⟨promote id,
          (match ctx.parent_span with
            | none => ancestors.head?.map promote
            | some parent_span => some parent_span),
          ctx.trace_id⟩) ∧
    (∀ t : T, cache id = none → reg id = some ⟨none, t⟩ →
      (on_close reg cache promote id []).1 = some ⟨promote id, none, t⟩) ∧
    (∀ (t : T) (p : S), cache id = none → reg id = some ⟨some p, t⟩ →
      (on_close reg cache promote id ancestors).1 = some ⟨promote id, some p, t⟩) := by
  refine ⟨?_, ?_, ?_⟩
  · intro ctx h
    rw [on_close_eval_some reg cache promote id ancestors ctx h]
  · intro t hc hr
    have h : (eval_ctx reg cache (id :: [])).1 = some ⟨none, t⟩ := by
      unfold eval_ctx
      rw [evalCtxGo_cons_regHit reg cache [] id [] ⟨none, t⟩ hc hr]
      rfl
    rw [on_close_eval_some reg cache promote id [] ⟨none, t⟩ h]
    rfl
  · intro t p hc hr
    have h : (eval_ctx reg cache (id :: ancestors)).1 = some ⟨some p, t⟩ := by
      unfold eval_ctx
      rw [evalCtxGo_cons_regHit reg cache [] id ancestors ⟨some p, t⟩ hc hr]
      rfl
    rw [on_close_eval_some reg cache promote id ancestors ⟨some p, t⟩ h]

/-- Witness for C5: registry `{5 ↦ ⟨some 9, 1⟩}` (a local root with a remote
parent), ancestors `[4]`: the close record carries `parent_id = some 9`,
ignoring the in-process parent 4. -/
theorem c5_on_close_parent_id_witness :
    (on_close (S := Nat) (T := Nat)
        (fun i => if i = 5 then some ⟨some 9, 1⟩ else none)
        (fun _ => none) (fun i => i + 100) 5 [4]).1 =
      some ⟨105, some 9, 1⟩ :=
  (c5_on_close_parent_id _ _ _ 5 [4]).2.2 1 9 rfl rfl

-- ## Claim C1 (corrected): double registration overwrites

/-- Counterexample to Claim C1 as stated: after `record_trace_ctx` twice on
handle 5 (first `⟨none, 1⟩`, then `⟨none, 2⟩`), the registry holds the second
context, not the first, and the span closes with `trace_id = 2`. -/
theorem c1_counterexample :
    ((record_trace_ctx (record_trace_ctx (fun _ => none : Registry Nat Nat) 1 none 5)
        2 none 5) 5 ≠ some ⟨none, 1⟩) ∧
    ((record_trace_ctx (record_trace_ctx (fun _ => none : Registry Nat Nat) 1 none 5)
        2 none 5) 5 = some ⟨none, 2⟩) ∧
    ((on_close (record_trace_ctx (record_trace_ctx (fun _ => none : Registry Nat Nat) 1 none 5)
        2 none 5) (fun _ => none) (fun i => i) 5 []).1 = some ⟨5, none, 2⟩) := by
  refine ⟨by decide, by decide, by decide⟩

/-- Claim C1 (amended): `record_trace_ctx` on an already-registered handle
overwrites the entry (`HashMap::insert`): the second `TraceCtx` wins, no other
handle is affected, the call does not abort, and a span closed after the two
registrations is reported with the second registration's `trace_id`. -/
theorem c1_record_overwrites {S T : Type} (reg : Registry S T) (t1 t2 : T)
    (p1 p2 : Option S) (h : SpanHandle) (cache : Cache S T)
    (promote : SpanHandle → S) :
    ((record_trace_ctx (record_trace_ctx reg t1 p1 h) t2 p2 h) h = some ⟨p2, t2⟩) ∧
    (∀ j, j ≠ h → (record_trace_ctx (record_trace_ctx reg t1 p1 h) t2 p2 h) j = reg j) ∧
    (cache h = none →
      ∃ rec : SpanRecord S T,
        (on_close (record_trace_ctx (record_trace_ctx reg t1 p1 h) t2 p2 h)
            cache promote h []).1 = some rec ∧
        rec.trace_id = t2) := by
  refine ⟨by simp [record_trace_ctx], fun j hj => by simp [record_trace_ctx, hj], ?_⟩
  intro hc
  have hreg : (record_trace_ctx (record_trace_ctx reg t1 p1 h) t2 p2 h) h =
      some ⟨p2, t2⟩ := by simp [record_trace_ctx]
  have he : (eval_ctx (record_trace_ctx (record_trace_ctx reg t1 p1 h) t2 p2 h)
      cache (h :: [])).1 = some ⟨p2, t2⟩ := by
    unfold eval_ctx
    rw [evalCtxGo_cons_regHit _ cache [] h [] ⟨p2, t2⟩ hc hreg]
    rfl
  rw [on_close_eval_some _ cache promote h [] ⟨p2, t2⟩ he]
  exact ⟨_, rfl, rfl⟩

/-- Witness for C1 (amended) at a concrete input. -/
theorem c1_record_overwrites_witness :
    ∃ rec : SpanRecord Nat Nat,
      (on_close (record_trace_ctx (record_trace_ctx (fun _ => none : Registry Nat Nat)
            1 none 5) 2 (some 7) 5)
          (fun _ => none) (fun i => i) 5 []).1 = some rec ∧
      rec.trace_id = 2 :=
  (c1_record_overwrites (fun _ => none) 1 2 none (some 7) 5 (fun _ => none)
    (fun i => i)).2.2 rfl

-- ## Claim C9 (corrected): closing a span does not delete its registry entry

/-- Counterexample to Claim C9 as stated: span 5 is registered with
`⟨none, 1⟩`; `on_close` reports its record, yet the registry map after the
call still contains the entry for handle 5. -/
theorem c9_counterexample :
    ((on_close (fun i => if i = 5 then some ⟨none, 1⟩ else none : Registry Nat Nat)
        (fun _ => none) (fun i => i) 5 []).1 = some ⟨5, none, 1⟩) ∧
    ((on_close (fun i => if i = 5 then some ⟨none, 1⟩ else none : Registry Nat Nat)
        (fun _ => none) (fun i => i) 5 []).2.1 5 = some ⟨none, 1⟩) := by
  refine ⟨by decide, by decide⟩

/-- Claim C9 (amended): `on_close` never writes the trace-context registry
map — after any close the map is pointwise unchanged; in particular a
registered span's entry survives its own close (the only removals in
`on_close` are the span's visitor and init-timestamp extensions). -/
theorem c9_on_close_registry_unchanged {S T : Type} (reg : Registry S T)
    (cache : Cache S T) (promote : SpanHandle → S) (id : SpanHandle)
    (ancestors : List SpanHandle) :
    (∀ i, (on_close reg cache promote id ancestors).2.1 i = reg i) ∧
    (∀ c : TraceCtx S T, cache id = none → reg id = some c →
      (on_close reg cache promote id ancestors).2.1 id = some c ∧
      ((on_close reg cache promote id ancestors).1).isSome = true) := by
  have hreg : (on_close reg cache promote id ancestors).2.1 = reg := by
    cases hcase : (eval_ctx reg cache (id :: ancestors)).1 with
    | none => rw [on_close_eval_none reg cache promote id ancestors hcase]
    | some ctx => rw [on_close_eval_some reg cache promote id ancestors ctx hcase]
  refine ⟨fun i => by rw [hreg], ?_⟩
  intro c hc hr
  have he : (eval_ctx reg cache (id :: ancestors)).1 = some c := by
    unfold eval_ctx
    rw [evalCtxGo_cons_regHit reg cache [] id ancestors c hc hr]
    cases c
    rfl
  rw [on_close_eval_some reg cache promote id ancestors c he]
  exact ⟨hr, rfl⟩

/-- Witness for C9 (amended) at a concrete input. -/
theorem c9_on_close_registry_unchanged_witness :
    (on_close (fun i => if i = 6 then some ⟨some 2, 3⟩ else none : Registry Nat Nat)
        (fun _ => none) (fun i => i) 6 [9]).2.1 6 = some ⟨some 2, 3⟩ ∧
    ((on_close (fun i => if i = 6 then some ⟨some 2, 3⟩ else none : Registry Nat Nat)
        (fun _ => none) (fun i => i) 6 [9]).1).isSome = true :=
  (c9_on_close_registry_unchanged _ _ _ 6 [9]).2 ⟨some 2, 3⟩ rfl rfl

-- ## `on_event` unfolding lemmas

theorem on_event_parent_none {S T : Type} (reg : Registry S T) (cache : Cache S T)
    (promote : SpanHandle → S) (explicitParent : Option SpanHandle) (isRoot : Bool)
    (current : Option SpanHandle) (parentAncestors : SpanHandle → List SpanHandle)
    (hp : eventParent explicitParent isRoot current = none) :
    on_event reg cache promote explicitParent isRoot current parentAncestors =
      (none, cache) := by
  simp only [on_event, hp]

theorem on_event_eval_none {S T : Type} (reg : Registry S T) (cache : Cache S T)
    (promote : SpanHandle → S) (explicitParent : Option SpanHandle) (isRoot : Bool)
    (current : Option SpanHandle) (parentAncestors : SpanHandle → List SpanHandle)
    (pid : SpanHandle)
    (hp : eventParent explicitParent isRoot current = some pid)
    (he : (eval_ctx reg cache (pid :: parentAncestors pid)).1 = none) :
    on_event reg cache promote explicitParent isRoot current parentAncestors =
      (none, (eval_ctx reg cache (pid :: parentAncestors pid)).2) := by
  simp only [on_event, hp, he]

theorem on_event_eval_some {S T : Type} (reg : Registry S T) (cache : Cache S T)
    (promote : SpanHandle → S) (explicitParent : Option SpanHandle) (isRoot : Bool)
    (current : Option SpanHandle) (parentAncestors : SpanHandle → List SpanHandle)
    (pid : SpanHandle) (ctx : TraceCtx S T)
    (hp : eventParent explicitParent isRoot current = some pid)
    (he : (eval_ctx reg cache (pid :: parentAncestors pid)).1 = some ctx) :
    on_event reg cache promote explicitParent isRoot current parentAncestors =
      (some ⟨some (promote pid), ctx.trace_id⟩,
        (eval_ctx reg cache (pid :: parentAncestors pid)).2) := by
  simp only [on_event, hp, he]

-- ## Claim C10: reported events always carry a parent id

/-- Claim C10: every `EventRecord` that `on_event` hands to the reporter has
`parent_id = some (promote pid)` for the event's resolved parent span `pid`;
no event is reported with `parent_id = none`. -/
theorem c10_on_event_parent_id {S T : Type} (reg : Registry S T) (cache : Cache S T)
    (promote : SpanHandle → S) (explicitParent : Option SpanHandle) (isRoot : Bool)
    (current : Option SpanHandle) (parentAncestors : SpanHandle → List SpanHandle)
    (ev : EventRecord S T)
    (hev : (on_event reg cache promote explicitParent isRoot current
        parentAncestors).1 = some ev) :
    ∃ pid, eventParent explicitParent isRoot current = some pid ∧
      ev.parent_id = some (promote pid) := by
  cases hp : eventParent explicitParent isRoot current with
  | none =>
    rw [on_event_parent_none reg cache promote _ _ _ parentAncestors hp] at hev
    exact Option.noConfusion hev
  | some pid =>
    cases he : (eval_ctx reg cache (pid :: parentAncestors pid)).1 with
    | none =>
      rw [on_event_eval_none reg cache promote _ _ _ parentAncestors pid hp he] at hev
      exact Option.noConfusion hev
    | some ctx =>
      rw [on_event_eval_some reg cache promote _ _ _ parentAncestors pid ctx hp he] at hev
      refine ⟨pid, rfl, ?_⟩
      injection hev with hv
      rw [← hv]

/-- Witness for C10 at a concrete input: explicit parent 5, registered with
`⟨none, 1⟩`; the reported event carries `parent_id = some (promote 5)`. -/
theorem c10_on_event_parent_id_witness :
    ∃ pid, eventParent (some 5) false none = some pid ∧
      (⟨some 105, 1⟩ : EventRecord Nat Nat).parent_id = some (pid + 100) :=
  c10_on_event_parent_id (fun i => if i = 5 then some ⟨none, 1⟩ else none)
    (fun _ => none) (fun i => i + 100) (some 5) false none (fun _ => [])
    ⟨some 105, 1⟩ (by decide)

-- ## Out-of-band helpers (`tracing-distributed/src/trace.rs`)

/-- `TraceCtxError` from `tracing-distributed/src/trace.rs`. -/
inductive TraceCtxError where
  | TelemetryLayerNotRegistered
  | RegistrySubscriberNotRegistered
  | NoEnabledSpan
  | NoParentNodeHasTraceCtx
deriving DecidableEq

/-- The two capabilities a `tracing::Dispatch` may expose to the helpers via
`downcast_ref`: the `TraceCtxRegistry` (its map plus the `promote_span_id`
function) and the `tracing_subscriber::Registry` span store (modelled as the
ancestor chain of each span, the data the helper's unfold iterator reads). -/
structure Dispatch (S T : Type) where
  trace_ctx_registry : Option (Registry S T × (SpanHandle → S))
  span_store : Option (SpanHandle → List SpanHandle)

/-- `register_dist_tracing_root`: `Span::current().with_subscriber(..)` is
`none` when no span is enabled (`NoEnabledSpan`); otherwise the dispatcher is
downcast to the `TraceCtxRegistry` (`TelemetryLayerNotRegistered` on failure)
and `record_trace_ctx` is called on the current span's handle.  Returns the
updated registry map. -/
def register_dist_tracing_root (current : Option (SpanHandle × Dispatch S T))
    (trace_id : T) (remote_parent_span : Option S) :
    Except TraceCtxError (Registry S T) :=
  match current with
  | none => .error .NoEnabledSpan
  | some (current_span_id, dispatch) =>
    match dispatch.trace_ctx_registry with
    | none => .error .TelemetryLayerNotRegistered
    | some (reg, _) =>
      .ok (record_trace_ctx reg trace_id remote_parent_span current_span_id)

/-- `current_dist_trace_ctx`: after the same two checks it additionally
downcasts the span store (`RegistrySubscriberNotRegistered` on failure),
builds the current span's ancestor iterator, and runs `eval_ctx`; a `none`
resolution is `NoParentNodeHasTraceCtx`, otherwise the result is
`(trace_id, promote_span_id(current_span_id))`. -/
def current_dist_trace_ctx (current : Option (SpanHandle × Dispatch S T))
    (cache : Cache S T) : Except TraceCtxError (T × S) :=
  match current with
  | none => .error .NoEnabledSpan
  | some (current_span_id, dispatch) =>
    match dispatch.trace_ctx_registry with
    | none => .error .TelemetryLayerNotRegistered
    | some (reg, promote) =>
      match dispatch.span_store with
      | none => .error .RegistrySubscriberNotRegistered
      | some ancestors =>
        match (eval_ctx reg cache
            (current_span_id :: ancestors current_span_id)).1 with
        | none => .error .NoParentNodeHasTraceCtx
        | some x => .ok (x.trace_id, promote current_span_id)

-- ## Claim C8: error taxonomy of the two helpers

/-- Claim C8: `register_dist_tracing_root` can only fail with
`TelemetryLayerNotRegistered` or `NoEnabledSpan` (never with the span-store or
no-ancestor errors), while `current_dist_trace_ctx` can only fail with one of
the four `TraceCtxError` values. -/
theorem c8_error_taxonomy {S T : Type} :
    (∀ (current : Option (SpanHandle × Dispatch S T)) (t : T) (r : Option S)
        (e : TraceCtxError),
        register_dist_tracing_root current t r = .error e →
        e = .TelemetryLayerNotRegistered ∨ e = .NoEnabledSpan) ∧
    (∀ (current : Option (SpanHandle × Dispatch S T)) (t : T) (r : Option S),
        register_dist_tracing_root current t r ≠
          .error .RegistrySubscriberNotRegistered ∧
        register_dist_tracing_root current t r ≠
          .error .NoParentNodeHasTraceCtx) ∧
    (∀ (current : Option (SpanHandle × Dispatch S T)) (cache : Cache S T)
        (e : TraceCtxError),
        current_dist_trace_ctx current cache = .error e →
        e = .TelemetryLayerNotRegistered ∨ e = .RegistrySubscriberNotRegistered ∨
        e = .NoEnabledSpan ∨ e = .NoParentNodeHasTraceCtx) := by
  have hreg : ∀ (current : Option (SpanHandle × Dispatch S T)) (t : T) (r : Option S)
      (e : TraceCtxError),
      register_dist_tracing_root current t r = .error e →
      e = .TelemetryLayerNotRegistered ∨ e = .NoEnabledSpan := by
    intro current t r e h
    match current with
    | none =>
      simp only [register_dist_tracing_root] at h
      exact Or.inr (Except.error.inj h).symm
    | some (id, dispatch) =>
      match hd : dispatch.trace_ctx_registry with
      | none =>
        simp only [register_dist_tracing_root, hd] at h
        exact Or.inl (Except.error.inj h).symm
      | some (reg, promote) =>
        simp only [register_dist_tracing_root, hd] at h
        exact Except.noConfusion h
  refine ⟨hreg, ?_, ?_⟩
  · intro current t r
    constructor
    · intro h
      rcases hreg current t r _ h with h' | h' <;> exact TraceCtxError.noConfusion h'
    · intro h
      rcases hreg current t r _ h with h' | h' <;> exact TraceCtxError.noConfusion h'
  · intro current cache e _
    cases e
    · exact Or.inl rfl
    · exact Or.inr (Or.inl rfl)
    · exact Or.inr (Or.inr (Or.inl rfl))
    · exact Or.inr (Or.inr (Or.inr rfl))

/-- Witness for C8 at concrete inputs: with no enabled span,
`register_dist_tracing_root` fails, and the failure is one of its two
permitted errors; a dispatcher without a span store makes
`current_dist_trace_ctx` fail with a permitted error. -/
theorem c8_error_taxonomy_witness :
    (TraceCtxError.NoEnabledSpan = .TelemetryLayerNotRegistered ∨
      TraceCtxError.NoEnabledSpan = .NoEnabledSpan) ∧
    (TraceCtxError.RegistrySubscriberNotRegistered = .TelemetryLayerNotRegistered ∨
      TraceCtxError.RegistrySubscriberNotRegistered = .RegistrySubscriberNotRegistered ∨
      TraceCtxError.RegistrySubscriberNotRegistered = .NoEnabledSpan ∨
      TraceCtxError.RegistrySubscriberNotRegistered = .NoParentNodeHasTraceCtx) :=
  ⟨(c8_error_taxonomy (S := Nat) (T := Nat)).1 none 1 none .NoEnabledSpan rfl,
    (c8_error_taxonomy (S := Nat) (T := Nat)).2.2
      (some (5, ⟨some (fun _ => none, fun i => i), none⟩)) (fun _ => none)
      .RegistrySubscriberNotRegistered rfl⟩

-- ## Identifier strings (`tracing-honeycomb/src/honeycomb.rs`)

/-- Rust strings are modelled as lists of character codes
(`'+' = 43`, `'-' = 45`, `'0'..'9' = 48..57`). -/
abbrev RStr := List Nat

/-- Decimal rendering of a nonnegative integer, as produced by Rust's
`Display` for `u64`/`u128` (`write!("{}", n)`): most significant digit
first, single `'0'` for zero. -/
def natToString (n : Nat) : RStr :=
  if n = 0 then [48] else ((Nat.digits 10 n).map (fun d => d + 48)).reverse

/-- `std::num::ParseIntError` kinds relevant to `from_str_radix`. -/
inductive ParseIntError where
  | Empty
  | InvalidDigit
  | PosOverflow
  | NegOverflow
deriving DecidableEq

/-- Value of a digit string, accumulated most-significant-first exactly like
`from_str_radix`'s loop (`acc = acc * 10 + digit`). -/
def digitsValue (s : RStr) : Nat :=
  s.foldl (fun acc c => acc * 10 + (c - 48)) 0

/-- Rust `u64::from_str_radix(s, 10)` / `u128::from_str_radix(s, 10)`
(`bound` is the type's maximum value): empty input is `Empty`; an optional
leading `'+'` is allowed (a leading `'-'` is not a digit, hence
`InvalidDigit`, matching the unsigned impl); any non-digit is `InvalidDigit`;
values exceeding `bound` are `PosOverflow`. -/
def fromStrRadix10 (bound : Nat) (s : RStr) : Except ParseIntError Nat :=
  match s with
  | [] => .error .Empty
  | c :: cs =>
    let ds := if c = 43 then cs else c :: cs
    if ds = [] then .error .InvalidDigit
    else if ds.all (fun d => 48 ≤ d && d ≤ 57) then
      if digitsValue ds ≤ bound then .ok (digitsValue ds)
      else .error .PosOverflow
    else .error .InvalidDigit

theorem foldl_digits (ds : List Nat) :
    ∀ acc : Nat, List.foldl (fun a c => a * 10 + (c - 48)) acc
        ((ds.map (fun d => d + 48)).reverse) =
      acc * 10 ^ ds.length + Nat.ofDigits 10 ds := by
  induction ds with
  | nil => intro acc; simp [Nat.ofDigits]
  | cons d ds ih =>
    intro acc
    simp only [List.map_cons, List.reverse_cons, List.foldl_append,
      List.foldl_cons, List.foldl_nil]
    rw [ih]
    simp only [Nat.ofDigits_cons, List.length_cons]
    have : d + 48 - 48 = d := by omega
    rw [this]
    ring

theorem natToString_digits (n : Nat) : ∀ c ∈ natToString n, 48 ≤ c ∧ c ≤ 57 := by
  intro c hc
  unfold natToString at hc
  split at hc
  · simp at hc; omega
  · simp only [List.mem_reverse, List.mem_map] at hc
    obtain ⟨d, hd, rfl⟩ := hc
    have := Nat.digits_lt_base (by norm_num) hd
    omega

theorem digitsValue_natToString (n : Nat) : digitsValue (natToString n) = n := by
  by_cases h0 : n = 0
  · subst h0; rfl
  · unfold natToString digitsValue
    rw [if_neg h0, foldl_digits]
    simp [Nat.ofDigits_digits]

/-- Parsing inverts decimal rendering (within the integer type's range). -/
theorem fromStrRadix10_natToString (bound n : Nat) (hn : n ≤ bound) :
    fromStrRadix10 bound (natToString n) = .ok n := by
  have hne : natToString n ≠ [] := by
    unfold natToString
    split
    · simp
    · simp_all [Nat.digits_ne_nil_iff_ne_zero]
  obtain ⟨c, cs, hcs⟩ := List.exists_cons_of_ne_nil hne
  have hcd : 48 ≤ c ∧ c ≤ 57 := natToString_digits n c (by rw [hcs]; simp)
  have hc43 : ¬(c = 43) := by omega
  have hall : (c :: cs).all (fun d => 48 ≤ d && d ≤ 57) = true := by
    rw [← hcs]
    simp only [List.all_eq_true, Bool.and_eq_true, decide_eq_true_eq]
    intro d hd
    exact natToString_digits n d hd
  have hval : digitsValue (c :: cs) = n := by rw [← hcs]; exact digitsValue_natToString n
  rw [hcs]
  simp only [fromStrRadix10, if_neg hc43, hall, hval, if_pos hn, reduceIte]
  simp

/-- `SpanId` from `tracing-honeycomb/src/honeycomb.rs`: a `tracing::Id`
(`u64`, nonzero by construction) paired with a per-process `instance_id`
(`u64`). -/
structure SpanId where
  tracing_id : Nat
  instance_id : Nat
deriving DecidableEq

/-- `ParseSpanIdError` from `tracing-honeycomb/src/honeycomb.rs`. -/
inductive ParseSpanIdError where
  | ParseIntError (e : ParseIntError)
  | FormatError
deriving DecidableEq

/-- `Display for SpanId`: `write!("{}-{}", tracing_id.into_u64(), instance_id)`. -/
def SpanId.to_string (s : SpanId) : RStr :=
  natToString s.tracing_id ++ 45 :: natToString s.instance_id

/-- One step of Rust's `str::split('-')` iterator: the piece before the first
separator, plus the remainder after it (`none` when no separator occurs, in
which case a second `iter.next()` returns `None`). -/
def splitFirst (sep : Nat) : RStr → RStr × Option RStr
  | [] => ([], none)
  | c :: cs =>
    if c = sep then ([], some cs)
    else
      let r := splitFirst sep cs
      (c :: r.1, r.2)

/-- `FromStr for SpanId`: split on `'-'`, parse the first two pieces as
base-10 `u64` (any further pieces are ignored by the source, which only calls
`iter.next()` twice).  The `Option` in the result models
`tracing::Id::from_u64` panicking on a zero first component (`none` = panic);
every non-panicking Rust return is `some`. -/
def SpanId.from_str (s : RStr) : Except ParseSpanIdError (Option SpanId) :=
  let first := splitFirst 45 s
  match fromStrRadix10 (2 ^ 64 - 1) first.1 with
  | .error e => .error (.ParseIntError e)
  | .ok u1 =>
    match first.2 with
    | none => .error .FormatError
    | some rest =>
      match fromStrRadix10 (2 ^ 64 - 1) (splitFirst 45 rest).1 with
      | .error e => .error (.ParseIntError e)
      | .ok u2 => .ok (if u1 = 0 then none else some ⟨u1, u2⟩)

/-- `Display for TraceId` (`TraceId` wraps a `u128`, modelled as a `Nat`
below `2^128`): decimal rendering. -/
def TraceId.to_string (t : Nat) : RStr := natToString t

/-- `FromStr for TraceId`: `u128::from_str_radix(s, 10)`. -/
def TraceId.from_str (s : RStr) : Except ParseIntError Nat :=
  fromStrRadix10 (2 ^ 128 - 1) s

theorem splitFirst_not_mem (sep : Nat) (s : RStr) (h : sep ∉ s) :
    splitFirst sep s = (s, none) := by
  induction s with
  | nil => rfl
  | cons c cs ih =>
    have hc : ¬(c = sep) := fun hc => h (by simp [hc])
    simp only [splitFirst, if_neg hc, ih (fun hm => h (by simp [hm]))]

theorem splitFirst_append (sep : Nat) (a b : RStr) (h : sep ∉ a) :
    splitFirst sep (a ++ sep :: b) = (a, some b) := by
  induction a with
  | nil => simp [splitFirst]
  | cons c cs ih =>
    have hc : ¬(c = sep) := fun hc => h (by simp [hc])
    have ih' := ih (fun hm => h (by simp [hm]))
    simp only [List.cons_append, splitFirst, if_neg hc, List.append_eq, ih']

theorem not_mem_natToString_45 (n : Nat) : (45 : Nat) ∉ natToString n := by
  intro h
  have := natToString_digits n 45 h
  omega

-- ## Claim C6: identifier string round-trips

/-- Claim C6: `TraceId` parsing inverts formatting for every `u128` value;
`SpanId` parsing inverts the `"{handle}-{nonce}"` base-10 encoding for every
value with nonzero handle and nonce; malformed inputs are rejected with the
structured errors `ParseIntError` / `ParseSpanIdError`. -/
theorem c6_id_round_trip :
    (∀ t : Nat, t < 2 ^ 128 →
      TraceId.from_str (TraceId.to_string t) = .ok t) ∧
    (∀ s : SpanId, s.tracing_id ≠ 0 → s.instance_id ≠ 0 →
      s.tracing_id < 2 ^ 64 → s.instance_id < 2 ^ 64 →
      SpanId.from_str (SpanId.to_string s) = .ok (some s)) ∧
    (TraceId.from_str [97] = .error .InvalidDigit) ∧
    (SpanId.from_str [49] = .error .FormatError) ∧
    (TraceId.from_str [] = .error .Empty) := by
  refine ⟨?_, ?_, by rfl, by rfl, by rfl⟩
  · intro t ht
    exact fromStrRadix10_natToString (2 ^ 128 - 1) t (by omega)
  · intro s h1 h2 hb1 hb2
    have hsplit1 : splitFirst 45 (SpanId.to_string s) =
        (natToString s.tracing_id, some (natToString s.instance_id)) := by
      unfold SpanId.to_string
      exact splitFirst_append 45 _ _ (not_mem_natToString_45 _)
    have hsplit2 : splitFirst 45 (natToString s.instance_id) =
        (natToString s.instance_id, none) :=
      splitFirst_not_mem 45 _ (not_mem_natToString_45 _)
    have hp1 : fromStrRadix10 (2 ^ 64 - 1) (natToString s.tracing_id) =
        .ok s.tracing_id :=
      fromStrRadix10_natToString _ _ (by omega)
    have hp2 : fromStrRadix10 (2 ^ 64 - 1) (natToString s.instance_id) =
        .ok s.instance_id :=
      fromStrRadix10_natToString _ _ (by omega)
    simp only [SpanId.from_str, hsplit1, hsplit2, hp1, hp2, if_neg h1]

/-- Witness for C6 at concrete inputs: `TraceId` 12345 and `SpanId` `3-7`. -/
theorem c6_id_round_trip_witness :
    TraceId.from_str (TraceId.to_string 12345) = .ok 12345 ∧
    SpanId.from_str (SpanId.to_string ⟨3, 7⟩) = .ok (some ⟨3, 7⟩) :=
  ⟨c6_id_round_trip.1 12345 (by norm_num),
    c6_id_round_trip.2.1 ⟨3, 7⟩ (by norm_num) (by norm_num) (by norm_num) (by norm_num)⟩

-- ## Sampling (`tracing-honeycomb/src/honeycomb.rs` lines 50-55 and
-- `tracing-honeycomb/src/deterministic_sampler.rs`)

/-- `HoneycombTelemetry::should_report`: with `sample_rate = Some(r)` the
record is reported iff `trace_id.0 % sample_rate == 0`; with `None` every
record is reported. -/
def should_report (sample_rate : Option Nat) (trace_id : Nat) : Bool :=
  match sample_rate with
  | some sample_rate => trace_id % sample_rate == 0
  | none => true

/-- `HoneycombTelemetry::report_span`: `report_data` is called iff
`should_report(span.trace_id)`. -/
def report_span_emits {S : Type} (sample_rate : Option Nat)
    (span : SpanRecord S Nat) : Bool :=
  should_report sample_rate span.trace_id

/-- `HoneycombTelemetry::report_event`: `report_data` is called iff
`should_report(event.trace_id)`. -/
def report_event_emits {S : Type} (sample_rate : Option Nat)
    (event : EventRecord S Nat) : Bool :=
  should_report sample_rate event.trace_id

/-- `u32::rotate_left` for 32-bit values. -/
def rotl32 (s n : Nat) : Nat :=
  ((n <<< s) % 4294967296) ||| (n >>> (32 - s))

/-- Big-endian 32-bit words from a byte list (`u32::from_be_bytes` per group
of four). -/
def toWords : List Nat → List Nat
  | b0 :: b1 :: b2 :: b3 :: rest =>
    (((b0 * 256 + b1) * 256 + b2) * 256 + b3) :: toWords rest
  | _ => []

/-- Big-endian bytes of a 32-bit value. -/
def u32be (n : Nat) : List Nat :=
  [(n >>> 24) % 256, (n >>> 16) % 256, (n >>> 8) % 256, n % 256]

/-- Big-endian bytes of a 64-bit value. -/
def u64be (n : Nat) : List Nat :=
  [(n >>> 56) % 256, (n >>> 48) % 256, (n >>> 40) % 256, (n >>> 32) % 256,
    (n >>> 24) % 256, (n >>> 16) % 256, (n >>> 8) % 256, n % 256]

/-- SHA-1 message padding: `0x80`, zeros to 56 mod 64, 64-bit big-endian bit
length. -/
def sha1Pad (msg : List Nat) : List Nat :=
  msg ++ 128 :: (List.replicate ((119 - msg.length % 64) % 64) 0 ++ u64be (8 * msg.length))

/-- Split into 64-byte chunks (fuel-indexed for structural recursion; the
fuel is instantiated with the padded length, which always suffices). -/
def chunksGo : Nat → List Nat → List (List Nat)
  | 0, _ => []
  | _, [] => []
  | fuel + 1, l => l.take 64 :: chunksGo fuel (l.drop 64)

/-- SHA-1 message-schedule extension of a chunk's 16 words to 80, on a
reversed word list (most recent first): `w[i] = rotl1(w[i-3] ^ w[i-8] ^
w[i-14] ^ w[i-16])`. -/
def extendLoop : Nat → List Nat → List Nat
  | 0, rws => rws
  | k + 1, rws =>
    let w := rotl32 1
      ((rws.getD 2 0) ^^^ (rws.getD 7 0) ^^^ (rws.getD 13 0) ^^^ (rws.getD 15 0))
    extendLoop k (w :: rws)

/-- The 80 SHA-1 compression rounds. -/
def sha1Rounds : List Nat → Nat → Nat × Nat × Nat × Nat × Nat → Nat × Nat × Nat × Nat × Nat
  | [], _, st => st
  | w :: ws, i, (a, b, c, d, e) =>
    let f :=
      if i < 20 then (b &&& c) ||| ((4294967295 - b) &&& d)
      else if i < 40 then b ^^^ c ^^^ d
      else if i < 60 then (b &&& c) ||| (b &&& d) ||| (c &&& d)
      else b ^^^ c ^^^ d
    let k :=
      if i < 20 then 1518500249
      else if i < 40 then 1859775393
      else if i < 60 then 2400959708
      else 3395469782
    let temp := (rotl32 5 a + f + e + k + w) % 4294967296
    sha1Rounds ws (i + 1) (temp, a, rotl32 30 b, c, d)

/-- One SHA-1 chunk step. -/
def sha1Chunk (h : Nat × Nat × Nat × Nat × Nat) (chunk : List Nat) :
    Nat × Nat × Nat × Nat × Nat :=
  let ws := (extendLoop 64 (toWords chunk).reverse).reverse
  let (h0, h1, h2, h3, h4) := h
  let (a, b, c, d, e) := sha1Rounds ws 0 (h0, h1, h2, h3, h4)
  ((h0 + a) % 4294967296, (h1 + b) % 4294967296, (h2 + c) % 4294967296,
    (h3 + d) % 4294967296, (h4 + e) % 4294967296)

/-- `Sha1::digest`: 20-byte SHA-1 digest of a byte string (checked against
the reference test vectors for `""`, `"1"`, `"2"` and a two-chunk input). -/
def sha1 (msg : List Nat) : List Nat :=
  let padded := sha1Pad msg
  let hs := (chunksGo padded.length padded).foldl sha1Chunk
      (1732584193, 4023233417, 2562383102, 271733878, 3285377520)
  u32be hs.1 ++ u32be hs.2.1 ++ u32be hs.2.2.1 ++ u32be hs.2.2.2.1 ++ u32be hs.2.2.2.2

/-- `u32::from_be_bytes` on the first four bytes. -/
def fromBe4 (bs : List Nat) : Nat :=
  ((bs.getD 0 0 * 256 + bs.getD 1 0) * 256 + bs.getD 2 0) * 256 + bs.getD 3 0

/-- `deterministic_sampler::sample`: first four bytes of `Sha1::digest` of
the trace id's external form (its string bytes), big-endian, compared against
`u32::MAX / sample_rate`. -/
def sample (sample_rate : Nat) (trace_id_bytes : List Nat) : Bool :=
  let sum := sha1 trace_id_bytes
  let upper_bound := 4294967295 / sample_rate
  decide (fromBe4 sum ≤ upper_bound)

theorem natToString_one : natToString 1 = [49] := by
  unfold natToString
  rw [if_neg (by omega), Nat.digits_def' (by norm_num : 1 < 10) (by norm_num)]
  norm_num

-- ## Claim C7 (corrected): the installed sampler is modulo, not SHA-1

set_option maxRecDepth 100000 in
/-- Counterexample to Claim C7 as stated: for trace id 1 at sample rate 2,
`HoneycombTelemetry::should_report` rejects (`1 % 2 ≠ 0`) while the SHA-1
predicate of `deterministic_sampler::sample` accepts the same trace id's
external form `"1"` (first digest word `0x356a192b ≤ u32::MAX / 2`), so
`should_report` is not the hash predicate the claim describes. -/
theorem c7_counterexample :
    should_report (some 2) 1 = false ∧
    sample 2 (natToString 1) = true := by
  constructor
  · rfl
  · rw [natToString_one]
    decide

/-- Claim C7 (amended): `should_report` is a pure function of the configured
sample rate and the trace id alone: with rate `N` it accepts iff
`trace_id % N == 0` (with no rate it always accepts), so a span record and an
event record of the same trace are either both reported or both dropped; the
SHA-1 first-four-bytes predicate described by the claim is what
`deterministic_sampler::sample` computes, but `should_report` does not use it. -/
theorem c7_should_report_modulo {S : Type} (sample_rate : Nat) (t : Nat)
    (span : SpanRecord S Nat) (event : EventRecord S Nat) :
    (should_report (some sample_rate) t = true ↔ t % sample_rate = 0) ∧
    (should_report none t = true) ∧
    (span.trace_id = event.trace_id →
      report_span_emits (some sample_rate) span =
        report_event_emits (some sample_rate) event) := by
  refine ⟨?_, rfl, ?_⟩
  · simp [should_report]
  · intro h
    simp [report_span_emits, report_event_emits, h]

/-- Witness for C7 (amended) at a concrete input: rate 3, trace id 6, a span
record and an event record of the same trace. -/
theorem c7_should_report_modulo_witness :
    (should_report (some 3) 6 = true ↔ 6 % 3 = 0) ∧
    (should_report none 6 = true) ∧
    ((⟨0, none, 6⟩ : SpanRecord Nat Nat).trace_id =
        (⟨none, 6⟩ : EventRecord Nat Nat).trace_id →
      report_span_emits (some 3) (⟨0, none, 6⟩ : SpanRecord Nat Nat) =
        report_event_emits (some 3) (⟨none, 6⟩ : EventRecord Nat Nat)) :=
  c7_should_report_modulo 3 6 ⟨0, none, 6⟩ ⟨none, 6⟩
